import Mathlib

/-!
# Shallow embedding of the `pwaasse` bingo PWA

This file embeds the game-logic and service-worker code of the repository
(`service-worker.js` and `script.js`, concatenated in `src/sw.js`) as Lean
definitions and proves the spec's testable properties about them.

Modelling conventions:
* JS `Set` objects become `Finset ℕ`; `Array.from(set)` becomes `Finset.sort (· ≤ ·)`
  (an ordered list listing the set's elements).
* A JS value that may be `undefined` becomes an `Option`.
* `Math.random()*(end-start+1)+start` draws are modelled by an externally supplied
  stream of naturals reduced into the column range with `%`; the rejection loop
  (`while colNums.length < 5`) becomes structural recursion over that stream.
* DOM manipulation (CSS classes, highlight timers) is outside the embedding;
  `checkBingo` is modelled by its effect on the score, since every card passed to
  it in the source was built by `createBoardCard` and therefore contains the grid.
* Network `fetch` is an `Option Response` argument (`none` = the fetch rejected);
  the Cache Storage is an association list from URL to response.
-/

namespace PwaBingo

/-- A cell of `board.numbers`: either the `"FREE"` sentinel string or a number. -/
inductive CellVal where
  | free : CellVal
  | num : ℕ → CellVal
deriving DecidableEq, Repr

/-- `const FREE_SPACE_INDEX = 12;` -/
def FREE_SPACE_INDEX : ℕ := 12

/-- `const MAX_BOARDS = 300;` -/
def MAX_BOARDS : ℕ := 300

/-- One entry of `BINGO_RANGES`; the source's `end` field is `last` here (`end` is a
Lean keyword). -/
structure BingoRange where
  letter : String
  start : ℕ
  last : ℕ
deriving DecidableEq, Repr

/-- `const BINGO_RANGES = [...]` from script.js. -/
def BINGO_RANGES : List BingoRange :=
  [⟨"B", 1, 15⟩, ⟨"I", 16, 30⟩, ⟨"N", 31, 45⟩, ⟨"G", 46, 60⟩, ⟨"O", 61, 75⟩]

/-- `BINGO_RANGES[col]`, with an irrelevant default for out-of-range indices. -/
def rangeFor (col : ℕ) : BingoRange := BINGO_RANGES.getD col ⟨"B", 1, 15⟩

/-- A `board` object: `{ id, numbers, markedCells, score, lastUpdated }`. -/
structure Board where
  id : ℕ
  numbers : List CellVal
  markedCells : Finset ℕ
  score : ℕ
  lastUpdated : ℕ
deriving DecidableEq

/-- The 12 winning patterns of `checkBingo`, in source order:
5 rows, then 5 columns, then 2 diagonals. -/
def patterns : List (List ℕ) :=
  [[0,1,2,3,4], [5,6,7,8,9], [10,11,12,13,14],
   [15,16,17,18,19], [20,21,22,23,24],
   [0,5,10,15,20], [1,6,11,16,21], [2,7,12,17,22],
   [3,8,13,18,23], [4,9,14,19,24],
   [0,6,12,18,24], [4,8,12,16,20]]

/-- `checkBingo(board, card)`: scans `patterns` in order; on the first pattern fully
contained in `marked` it increments the score and `break`s; otherwise the score is
unchanged.  (The DOM highlight side effects are outside the embedding.) -/
def checkBingo (marked : Finset ℕ) (score : ℕ) : ℕ :=
  match patterns.find? (fun p => p.all (fun i => decide (i ∈ marked))) with
  | some _ => score + 1
  | none => score

/-- `toggleCell(cell, board, index, card)`: the free space cannot be toggled;
otherwise membership of `index` in `markedCells` is flipped and `checkBingo` runs
on the updated board. -/
def toggleCell (b : Board) (index : ℕ) : Board :=
  if index = FREE_SPACE_INDEX then b
  else
    let m := if index ∈ b.markedCells then b.markedCells.erase index
             else insert index b.markedCells
    { b with markedCells := m, score := checkBingo m b.score }

/-- `resetBoard(board, card)`: clears `markedCells`, re-adds the free index and
zeroes the score.  (The card re-render is outside the embedding.) -/
def resetBoard (b : Board) : Board :=
  { b with markedCells := {FREE_SPACE_INDEX}, score := 0 }

/-! ## Board generation (`generateMockBoards`) -/

/-- `Math.floor(Math.random() * (range.end - range.start + 1)) + range.start`:
the raw draw `x` reduced into `[start, last]`. -/
def drawInRange (r : BingoRange) (x : ℕ) : ℕ :=
  r.start + x % (r.last - r.start + 1)

/-- The `while (colNums.length < 5)` rejection loop: consume draws, pushing each
one not already present, until 5 are collected (or the draw stream runs out). -/
def collectDistinct : List ℕ → List ℕ → List ℕ
  | [], acc => acc
  | d :: rest, acc =>
    if 5 ≤ acc.length then acc
    else if d ∈ acc then collectDistinct rest acc
    else collectDistinct rest (acc ++ [d])

/-- One column of a generated board: 5 distinct draws from the column's range,
sorted ascending (`colNums.sort((a, b) => a - b)`). -/
def genColumn (r : BingoRange) (draws : List ℕ) : List ℕ :=
  List.insertionSort (· ≤ ·) (collectDistinct (draws.map (drawInRange r)) [])

/-- The `numbers` array of one generated board:
`numbers[row*5+col] = colNums[row]`, then `numbers[FREE_SPACE_INDEX] = "FREE"`.
`draws col` is the raw random stream consumed for column `col`. -/
def genNumbers (draws : ℕ → List ℕ) : List CellVal :=
  (List.range 25).map (fun i =>
    if i = FREE_SPACE_INDEX then CellVal.free
    else CellVal.num ((genColumn (rangeFor (i % 5)) (draws (i % 5))).getD (i / 5) 0))

/-- One board built by the loop body of `generateMockBoards`:
fresh `markedCells = new Set([FREE_SPACE_INDEX])`, `score = 0`. -/
def generateBoard (id : ℕ) (draws : ℕ → List ℕ) (now : ℕ) : Board :=
  { id := id
    numbers := genNumbers draws
    markedCells := {FREE_SPACE_INDEX}
    score := 0
    lastUpdated := now }

/-- `generateMockBoards()`: boards with ids `1..MAX_BOARDS`.  `draws id col` is the
random stream consumed for column `col` of board `id`. -/
def generateMockBoards (draws : ℕ → ℕ → List ℕ) (now : ℕ) : List Board :=
  (List.range MAX_BOARDS).map (fun k => generateBoard (k + 1) (draws (k + 1)) now)

/-! ## Persistence (IndexedDB serialization) -/

/-- A board record as stored in IndexedDB: `markedCells` converted to an array
(`Array.from(board.markedCells)`).  The field is an `Option` because a raw stored
record might lack it (the source guards with `board.markedCells || [FREE_SPACE_INDEX]`);
saving always writes it. -/
structure StoredBoard where
  id : ℕ
  numbers : List CellVal
  markedCells : Option (List ℕ)
  score : ℕ
  lastUpdated : ℕ
deriving DecidableEq

/-- `{ ...board, markedCells: Array.from(board.markedCells) }`. -/
def serializeBoard (b : Board) : StoredBoard :=
  { id := b.id
    numbers := b.numbers
    markedCells := some (b.markedCells.sort (· ≤ ·))
    score := b.score
    lastUpdated := b.lastUpdated }

/-- `{ ...board, markedCells: new Set(board.markedCells || [FREE_SPACE_INDEX]) }`. -/
def rehydrateBoard (sb : StoredBoard) : Board :=
  { id := sb.id
    numbers := sb.numbers
    markedCells := (sb.markedCells.getD [FREE_SPACE_INDEX]).toFinset
    score := sb.score
    lastUpdated := sb.lastUpdated }

/-- The in-memory game state (`selectedBoards`, `allBoards`) plus the snapshot
timestamp. -/
structure GameState where
  selectedBoards : List ℕ
  boards : List Board
  timestamp : ℕ
deriving DecidableEq

/-- The single record `saveGameState` puts under key `'current'`. -/
structure StoredGameState where
  id : String
  selectedBoards : List ℕ
  boards : List StoredBoard
  timestamp : ℕ
deriving DecidableEq

/-- The record built inside `saveGameState()`. -/
def saveGameState (s : GameState) : StoredGameState :=
  { id := "current"
    selectedBoards := s.selectedBoards
    boards := s.boards.map serializeBoard
    timestamp := s.timestamp }

/-- The state rebuilt inside `loadGameState()` from a stored record:
`selectedBoards = state.selectedBoards || []` and every board rehydrated. -/
def loadGameState (st : StoredGameState) : GameState :=
  { selectedBoards := st.selectedBoards
    boards := st.boards.map rehydrateBoard
    timestamp := st.timestamp }

/-- The IndexedDB `put` transaction for the game state; `ok = false` models
`StorageUnavailable` (the store cannot open or transact). -/
def putGameStateTx (ok : Bool) (_db : Option StoredGameState) (st : StoredGameState) :
    Except String (Option StoredGameState) :=
  if ok then .ok (some st) else .error "IndexedDB unavailable"

/-- `saveGameState()` as seen by its caller: the `try/catch` around the
transaction.  Returns the possibly-updated store together with the (untouched)
in-memory state; on failure the error is only logged. -/
def saveGameStateCaught (ok : Bool) (db : Option StoredGameState) (mem : GameState) :
    Option StoredGameState × GameState :=
  match putGameStateTx ok db (saveGameState mem) with
  | .ok db2 => (db2, mem)
  | .error _ => (db, mem)

/-- `loadGameState()` as seen by its caller: on a stored record the in-memory
state is replaced by the rehydrated one; with no record, or on a storage error,
the in-memory state is left unchanged. -/
def loadGameStateCaught (ok : Bool) (db : Option StoredGameState) (mem : GameState) :
    GameState :=
  if ok then
    match db with
    | some st => loadGameState st
    | none => mem
  else mem

/-- The `getAll` transaction of `loadFromIndexedDB`. -/
def getAllBoardsTx (ok : Bool) (store : List StoredBoard) :
    Except String (List StoredBoard) :=
  if ok then .ok store else .error "IndexedDB unavailable"

/-- `loadFromIndexedDB()`: rehydrates every stored board; on a storage error
returns `null` (modelled `none`). -/
def loadFromIndexedDB (ok : Bool) (store : List StoredBoard) :
    Option (List Board) :=
  match getAllBoardsTx ok store with
  | .ok bs => some (bs.map rehydrateBoard)
  | .error _ => none

/-! ## Service worker (service-worker.js) -/

/-- `const CACHE_NAME = ` &#96;`bingo-pwa-v\x7bSW_VERSION\x7d`&#96;. -/
def CACHE_NAME : String := "bingo-pwa-v1.0.0"

/-- A `Response`: its HTTP status, its body, and whether the handler appended the
`X-Offline-Mode: true` header. -/
structure Response where
  status : ℕ
  body : String
  offlineHeader : Bool
deriving DecidableEq

/-- `response.ok`: status in the range 200–299. -/
def respOk (r : Response) : Bool := 200 ≤ r.status && r.status ≤ 299

/-- The Cache Storage content for `CACHE_NAME`: URL to cached response. -/
abbrev Cache : Type := List (String × Response)

/-- `caches.match(url)`. -/
def cacheMatch (c : Cache) (url : String) : Option Response :=
  (List.find? (fun p => decide (p.1 = url)) c).map Prod.snd

/-- `cache.put(request, response)` (the newest entry shadows older ones). -/
def cachePut (c : Cache) (url : String) (r : Response) : Cache :=
  (url, r) :: c

/-- Substring test used by `shouldCache` (`url.pathname.includes(...)`). -/
def containsSub (hay sub : String) : Bool :=
  (List.range (hay.length + 1)).any (fun i => sub.isPrefixOf (hay.drop i))

/-- `shouldCache(request)`: only GET requests, and no analytics/tracking paths. -/
def shouldCache (method pathname : String) : Bool :=
  if method ≠ "GET" then false
  else if containsSub pathname "analytics" || containsSub pathname "tracking" then false
  else true

/-- `handleNavigation(request)`.  `net` is the outcome of `fetch(request)`
(`none` = the fetch rejected).  Returns the value the promise resolves with
(`none` = it resolved with `undefined`) together with the updated cache. -/
def handleNavigation (net : Option Response) (cache : Cache) (req : String) :
    Option Response × Cache :=
  match net with
  | some r => (some r, if respOk r then cachePut cache req r else cache)
  | none =>
    match cacheMatch cache req with
    | some c => (some c, cache)
    | none => (cacheMatch cache "/index.html", cache)

/-- `handleStaticAsset(request)`.  On a cache hit the response is served and
`updateCache` refreshes the entry in the background (folded into the returned
cache); on a miss the network is tried, falling back to a 503. -/
def handleStaticAsset (net : Option Response) (cache : Cache) (req : String) :
    Option Response × Cache :=
  match cacheMatch cache req with
  | some c =>
    (some c,
     match net with
     | some r => if respOk r then cachePut cache req r else cache
     | none => cache)
  | none =>
    match net with
    | some r => (some r, if respOk r then cachePut cache req r else cache)
    | none => (some ⟨503, "Offline - Asset not available", false⟩, cache)

/-- `handleAPIRequest(request)`: network first; on failure a cached copy with the
`X-Offline-Mode` header, else a synthetic 503 JSON body. -/
def handleAPIRequest (net : Option Response) (cache : Cache) (req : String) :
    Option Response × Cache :=
  match net with
  | some r => (some r, if respOk r then cachePut cache req r else cache)
  | none =>
    match cacheMatch cache req with
    | some c => (some { c with offlineHeader := true }, cache)
    | none =>
      (some ⟨503,
             "\x7b \"error\": \"offline\", \"message\": \"You are offline. Some features may be limited.\" \x7d",
             false⟩,
       cache)

/-- `handleDefault(request)`: cache first; then network (filling the cache when
`shouldCache` allows); on failure a synthetic 503. -/
def handleDefault (net : Option Response) (cache : Cache) (req method : String) :
    Option Response × Cache :=
  match cacheMatch cache req with
  | some c => (some c, cache)
  | none =>
    match net with
    | some r =>
      (some r, if respOk r && shouldCache method req then cachePut cache req r else cache)
    | none => (some ⟨503, "Offline", false⟩, cache)

/-- The `activate` listener: for every cache key, delete it unless it equals
`CACHE_NAME`; the surviving keys are returned. -/
def activateCleanup (keys : List String) : List String :=
  keys.filter (fun k => decide (k = CACHE_NAME))

/-- A concrete raw draw stream used for concrete evaluations: the draws
`0, 1, 2, 3, 4` for every column (yielding the first five numbers of each
column's range). -/
def draws0 : ℕ → List ℕ := fun _ => [0, 1, 2, 3, 4]

/-! ## Helper lemmas -/

/-- Serialize-then-rehydrate is the identity on boards. -/
lemma rehydrate_serialize (b : Board) : rehydrateBoard (serializeBoard b) = b := by
  cases b with
  | mk id numbers markedCells score lastUpdated =>
    simp [rehydrateBoard, serializeBoard, Finset.sort_toFinset]

/-- Mapping serialize-then-rehydrate over a board list is the identity. -/
lemma rehydrate_serialize_map (l : List Board) :
    l.map (fun b => rehydrateBoard (serializeBoard b)) = l := by
  induction l with
  | nil => rfl
  | cons a t ih => simp [rehydrate_serialize, ih]

/-- `checkBingo` increments the score exactly when some pattern is fully marked. -/
lemma checkBingo_eq_succ_iff (marked : Finset ℕ) (score : ℕ) :
    checkBingo marked score = score + 1 ↔ ∃ p ∈ patterns, ∀ i ∈ p, i ∈ marked := by
  cases h : patterns.find? (fun p => p.all (fun i => decide (i ∈ marked))) with
  | none =>
    have hred : checkBingo marked score = score := by
      unfold checkBingo
      rw [h]
    rw [hred]
    constructor
    · intro hc
      exact absurd hc (by omega)
    · rintro ⟨p, hp, hall⟩
      rw [List.find?_eq_none] at h
      exact absurd (by simpa using hall) (by simpa using h p hp)
  | some q =>
    have hred : checkBingo marked score = score + 1 := by
      unfold checkBingo
      rw [h]
    rw [hred]
    constructor
    · intro _
      refine ⟨q, List.mem_of_find?_eq_some h, ?_⟩
      simpa using List.find?_some h
    · intro _
      rfl

/-- `checkBingo` changes the score by 0 or 1. -/
lemma checkBingo_cases (marked : Finset ℕ) (score : ℕ) :
    checkBingo marked score = score ∨ checkBingo marked score = score + 1 := by
  unfold checkBingo
  cases patterns.find? (fun p => p.all (fun i => decide (i ∈ marked))) with
  | none => exact Or.inl rfl
  | some p => exact Or.inr rfl

/-- Filtering a duplicate-free list for one of its members yields that singleton. -/
lemma filter_eq_singleton_of_nodup (c : String) :
    ∀ (l : List String), l.Nodup → c ∈ l →
      l.filter (fun k => decide (k = c)) = [c] := by
  intro l
  induction l with
  | nil => simp
  | cons a t ih =>
    intro hnd hmem
    rcases List.nodup_cons.mp hnd with ⟨ha, hndt⟩
    by_cases hac : a = c
    · subst hac
      have hnil : t.filter (fun k => decide (k = a)) = [] := by
        rw [List.filter_eq_nil_iff]
        intro x hx
        simp only [decide_eq_true_eq]
        intro hxa
        exact ha (hxa ▸ hx)
      simp [List.filter_cons, hnil]
    · rcases List.mem_cons.mp hmem with h1 | h2
      · exact absurd h1.symm hac
      · simp [List.filter_cons, hac, ih hndt h2]

/-- The rejection loop preserves duplicate-freedom of the accumulator. -/
lemma collectDistinct_nodup :
    ∀ (draws acc : List ℕ), acc.Nodup → (collectDistinct draws acc).Nodup := by
  intro draws
  induction draws with
  | nil =>
    intro acc h
    simpa [collectDistinct] using h
  | cons d rest ih =>
    intro acc h
    unfold collectDistinct
    by_cases h5 : 5 ≤ acc.length
    · simpa [h5] using h
    · by_cases hd : d ∈ acc
      · simpa [h5, hd] using ih acc h
      · simp only [h5, hd, if_false]
        refine ih (acc ++ [d]) ?_
        simp [List.nodup_append, h, hd]

/-- Every element the rejection loop returns came from the accumulator or the draws. -/
lemma collectDistinct_mem :
    ∀ (draws acc : List ℕ) (x : ℕ),
      x ∈ collectDistinct draws acc → x ∈ acc ∨ x ∈ draws := by
  intro draws
  induction draws with
  | nil =>
    intro acc x hx
    exact Or.inl (by simpa [collectDistinct] using hx)
  | cons d rest ih =>
    intro acc x hx
    unfold collectDistinct at hx
    by_cases h5 : 5 ≤ acc.length
    · simp only [h5, if_true] at hx
      exact Or.inl hx
    · by_cases hd : d ∈ acc
      · simp only [h5, hd, if_false, if_true] at hx
        rcases ih acc x hx with h | h
        · exact Or.inl h
        · exact Or.inr (List.mem_cons_of_mem _ h)
      · simp only [h5, hd, if_false] at hx
        rcases ih (acc ++ [d]) x hx with h | h
        · rcases List.mem_append.mp h with h1 | h1
          · exact Or.inl h1
          · simp only [List.mem_singleton] at h1
            exact Or.inr (h1 ▸ List.mem_cons_self d rest)
        · exact Or.inr (List.mem_cons_of_mem _ h)

/-- A generated column has no duplicate numbers. -/
lemma genColumn_nodup (r : BingoRange) (draws : List ℕ) : (genColumn r draws).Nodup :=
  (List.perm_insertionSort _ _).nodup_iff.mpr
    (collectDistinct_nodup (draws.map (drawInRange r)) [] (by simp))

/-- A generated column is strictly increasing top-to-bottom. -/
lemma genColumn_sorted (r : BingoRange) (draws : List ℕ) :
    (genColumn r draws).Sorted (· < ·) :=
  (List.sorted_insertionSort _ _).lt_of_le (genColumn_nodup r draws)

/-- Every number of a generated column lies within the column's range. -/
lemma genColumn_mem_range (r : BingoRange) (hr : r.start ≤ r.last) (draws : List ℕ) :
    ∀ x ∈ genColumn r draws, r.start ≤ x ∧ x ≤ r.last := by
  intro x hx
  have hx2 : x ∈ collectDistinct (draws.map (drawInRange r)) [] :=
    (List.perm_insertionSort _ _).mem_iff.mp hx
  rcases collectDistinct_mem _ _ _ hx2 with h | h
  · simp at h
  · rcases List.mem_map.mp h with ⟨y, _, rfl⟩
    unfold drawInRange
    constructor
    · exact Nat.le_add_right _ _
    · have hmod : y % (r.last - r.start + 1) ≤ r.last - r.start :=
        Nat.lt_succ_iff.mp (Nat.mod_lt _ (Nat.succ_pos _))
      omega

/-- A generated `numbers` array has 25 slots. -/
lemma genNumbers_length (draws : ℕ → List ℕ) : (genNumbers draws).length = 25 := by
  simp [genNumbers]

/-- Cell `(row r, column c)` of a generated `numbers` array: the free sentinel at
index 12, otherwise the `r`-th entry of the generated column. -/
lemma genNumbers_getD (draws : ℕ → List ℕ) (c r : ℕ) (hc : c < 5) (hr : r < 5) :
    (genNumbers draws).getD (r * 5 + c) CellVal.free =
      if r * 5 + c = FREE_SPACE_INDEX then CellVal.free
      else CellVal.num ((genColumn (rangeFor c) (draws c)).getD r 0) := by
  have hlt : r * 5 + c < 25 := by omega
  have hmod : (r * 5 + c) % 5 = c := by omega
  have hdiv : (r * 5 + c) / 5 = r := by omega
  unfold genNumbers
  rw [List.getD_eq_getElem?_getD, List.getElem?_map, List.getElem?_range hlt]
  simp [hmod, hdiv]

/-! ## Claim theorems -/

/-- Claim C10: `resetBoard` sets `markedCells` to exactly the singleton of the
free index and the score to 0, and leaves `id`, `numbers` and `lastUpdated`
unchanged. -/
theorem resetBoard_frame (b : Board) :
    (resetBoard b).markedCells = {FREE_SPACE_INDEX} ∧
    (resetBoard b).score = 0 ∧
    (resetBoard b).id = b.id ∧
    (resetBoard b).numbers = b.numbers ∧
    (resetBoard b).lastUpdated = b.lastUpdated :=
  ⟨rfl, rfl, rfl, rfl, rfl⟩

/-- Claim C8: toggling a non-free cell twice returns `markedCells` to its
original value. -/
theorem toggleCell_toggleCell_markedCells (b : Board) (i : ℕ)
    (h : i ≠ FREE_SPACE_INDEX) :
    (toggleCell (toggleCell b i) i).markedCells = b.markedCells := by
  by_cases hm : i ∈ b.markedCells
  · simp [toggleCell, h, hm, Finset.insert_erase hm]
  · simp [toggleCell, h, hm, Finset.erase_insert hm]

/-- Witness for C8 at board 1 with only the free cell marked, toggling cell 0. -/
theorem toggleCell_toggleCell_markedCells_witness :
    (toggleCell (toggleCell ⟨1, [], {12}, 0, 0⟩ 0) 0).markedCells =
      (⟨1, [], {12}, 0, 0⟩ : Board).markedCells :=
  toggleCell_toggleCell_markedCells ⟨1, [], {12}, 0, 0⟩ 0 (by decide)

/-- Claim C5: the free index 12 is marked after generation (and is the only
pre-marked cell), `toggleCell` and `resetBoard` preserve its membership,
toggling index 12 leaves the board unchanged, and rehydrating a serialized board
preserves its membership. -/
theorem free_cell_invariant :
    (∀ id draws now, (generateBoard id draws now).markedCells = {FREE_SPACE_INDEX}) ∧
    (∀ draws now, ∀ b ∈ generateMockBoards draws now,
        b.markedCells = {FREE_SPACE_INDEX} ∧ b.markedCells.card = 1) ∧
    (∀ (b : Board) (i : ℕ), FREE_SPACE_INDEX ∈ b.markedCells →
        FREE_SPACE_INDEX ∈ (toggleCell b i).markedCells) ∧
    (∀ b : Board, toggleCell b FREE_SPACE_INDEX = b) ∧
    (∀ b : Board, FREE_SPACE_INDEX ∈ (resetBoard b).markedCells) ∧
    (∀ b : Board, FREE_SPACE_INDEX ∈ b.markedCells →
        FREE_SPACE_INDEX ∈ (rehydrateBoard (serializeBoard b)).markedCells) := by
  refine ⟨fun id draws now => rfl, ?_, ?_, ?_, ?_, ?_⟩
  · intro draws now b hb
    rcases List.mem_map.mp hb with ⟨k, _, rfl⟩
    exact ⟨rfl, rfl⟩
  · intro b i hmem
    by_cases hi : i = FREE_SPACE_INDEX
    · simpa [toggleCell, hi] using hmem
    · by_cases hm : i ∈ b.markedCells
      · simp only [toggleCell, hi, if_false, hm, if_true]
        exact Finset.mem_erase.mpr ⟨fun hfi => hi hfi.symm, hmem⟩
      · simp only [toggleCell, hi, if_false, hm]
        exact Finset.mem_insert_of_mem hmem
  · intro b
    simp [toggleCell]
  · intro b
    simp [resetBoard]
  · intro b hmem
    rw [rehydrate_serialize]
    exact hmem

/-- Witness for C5: toggling cell 3 on a fresh-style board keeps 12 marked. -/
theorem free_cell_invariant_witness :
    FREE_SPACE_INDEX ∈ (toggleCell ⟨1, [], {12}, 0, 0⟩ 3).markedCells :=
  free_cell_invariant.2.2.1 ⟨1, [], {12}, 0, 0⟩ 3 (by decide)

/-- Claim C6: after the Activate phase only caches named `CACHE_NAME` survive;
with distinct initial names containing `CACHE_NAME`, exactly it remains; in
particular from the names `v1` and the current version-tagged name, only the
latter remains. -/
theorem activate_cleanup_spec (keys : List String) (hnd : keys.Nodup) :
    (∀ k ∈ activateCleanup keys, k = CACHE_NAME) ∧
    (CACHE_NAME ∈ keys → activateCleanup keys = [CACHE_NAME]) := by
  constructor
  · intro k hk
    have := List.of_mem_filter hk
    simpa using this
  · intro hmem
    exact filter_eq_singleton_of_nodup CACHE_NAME keys hnd hmem

/-- Witness for C6: from the cache names `v1` and `bingo-pwa-v1.0.0`, activation
leaves exactly `bingo-pwa-v1.0.0`. -/
theorem activate_cleanup_spec_witness :
    activateCleanup ["v1", "bingo-pwa-v1.0.0"] = ["bingo-pwa-v1.0.0"] :=
  (activate_cleanup_spec ["v1", "bingo-pwa-v1.0.0"] (by decide)).2 (by decide)

/-- Claim C3: saving a game state and loading it back yields an identical state:
same `selectedBoards` sequence, and every board (hence its `markedCells` set,
serialized as an ordered list and rehydrated as a set) is restored exactly. -/
theorem persistence_round_trip (s : GameState) :
    loadGameState (saveGameState s) = s ∧
    (loadGameState (saveGameState s)).selectedBoards = s.selectedBoards ∧
    (∀ b ∈ s.boards, rehydrateBoard (serializeBoard b) = b) := by
  have hmain : loadGameState (saveGameState s) = s := by
    cases s with
    | mk sel bs ts =>
      simp only [loadGameState, saveGameState, List.map_map]
      congr 1
      exact rehydrate_serialize_map bs
  exact ⟨hmain, by rw [hmain], fun b _ => rehydrate_serialize b⟩

/-- Witness for C3 on a one-board state. -/
theorem persistence_round_trip_witness :
    rehydrateBoard (serializeBoard ⟨1, [], {12}, 0, 0⟩) = (⟨1, [], {12}, 0, 0⟩ : Board) :=
  (persistence_round_trip ⟨[1], [⟨1, [], {12}, 0, 0⟩], 5⟩).2.2 _ (by simp)

/-- Claim C9: the save transaction's failure is swallowed (the caller always gets
a result, with the in-memory state untouched), and loading returns the stored
state when one exists and leaves the in-memory state unchanged (a well-defined
default) when none exists or storage is unavailable; `loadFromIndexedDB` returns
`null` (none) on storage failure. -/
theorem storage_failure_semantics (ok : Bool) (db : Option StoredGameState)
    (store : List StoredBoard) (mem : GameState) :
    (saveGameStateCaught ok db mem).2 = mem ∧
    (saveGameStateCaught true db mem).1 = some (saveGameState mem) ∧
    (saveGameStateCaught false db mem).1 = db ∧
    loadFromIndexedDB false store = none ∧
    loadFromIndexedDB true store = some (store.map rehydrateBoard) ∧
    loadGameStateCaught false db mem = mem ∧
    loadGameStateCaught true none mem = mem ∧
    (∀ st, loadGameStateCaught true (some st) mem = loadGameState st) := by
  refine ⟨?_, rfl, rfl, rfl, rfl, rfl, rfl, fun st => rfl⟩
  cases ok <;> rfl

/-- Claim C1: one `checkBingo` invocation changes the score by at most 1 —
by exactly 1 when at least one of the 12 fixed patterns is fully contained in
the marked set (only the first match counts), by 0 otherwise; in particular a
marked set containing the full first row, or all 25 indices, increments the
score by exactly 1. -/
theorem checkBingo_score_policy (marked : Finset ℕ) (score : ℕ) :
    (checkBingo marked score = score ∨ checkBingo marked score = score + 1) ∧
    (checkBingo marked score = score + 1 ↔ ∃ p ∈ patterns, ∀ i ∈ p, i ∈ marked) ∧
    (({0, 1, 2, 3, 4} : Finset ℕ) ⊆ marked → checkBingo marked score = score + 1) ∧
    checkBingo (Finset.range 25) score = score + 1 := by
  refine ⟨checkBingo_cases marked score, checkBingo_eq_succ_iff marked score, ?_, ?_⟩
  · intro hsub
    refine (checkBingo_eq_succ_iff marked score).mpr ⟨[0, 1, 2, 3, 4], by decide, ?_⟩
    intro i hi
    apply hsub
    fin_cases hi <;> decide
  · refine (checkBingo_eq_succ_iff (Finset.range 25) score).mpr
      ⟨[0, 1, 2, 3, 4], by decide, ?_⟩
    intro i hi
    fin_cases hi <;> decide

/-- Witness for C1: the fully marked first row increments the score 0 to 1. -/
theorem checkBingo_score_policy_witness :
    checkBingo {0, 1, 2, 3, 4} 0 = 0 + 1 :=
  (checkBingo_score_policy {0, 1, 2, 3, 4} 0).2.2.1 (by decide)

/-- Claim C2 counterexample: with the network down and an empty cache, the
navigation handler resolves with `undefined` (no response at all) — neither a
cached response nor a synthetic 503. -/
theorem handleNavigation_resolves_undefined :
    (handleNavigation none ([] : Cache) "/page").1 = none := rfl

/-- Claim C2 (amended): `handleStaticAsset`, `handleAPIRequest` and
`handleDefault` always resolve with a response — on network failure a cached
response (for the API case, marked with the offline header) or a synthetic 503;
`handleNavigation` can resolve with no response, but only when the network
fetch failed and neither the request nor `/index.html` is cached. -/
theorem fetch_handlers_resolve (net : Option Response) (cache : Cache)
    (req method : String) :
    (handleStaticAsset net cache req).1.isSome = true ∧
    (handleAPIRequest net cache req).1.isSome = true ∧
    (handleDefault net cache req method).1.isSome = true ∧
    (∀ r, (handleStaticAsset none cache req).1 = some r →
        cacheMatch cache req = some r ∨ r.status = 503) ∧
    (∀ r, (handleAPIRequest none cache req).1 = some r →
        (∃ c, cacheMatch cache req = some c ∧ r = { c with offlineHeader := true }) ∨
        r.status = 503) ∧
    (∀ r, (handleDefault none cache req method).1 = some r →
        cacheMatch cache req = some r ∨ r.status = 503) ∧
    ((handleNavigation net cache req).1 = none →
      net = none ∧ cacheMatch cache req = none ∧
        cacheMatch cache "/index.html" = none) := by
  refine ⟨?_, ?_, ?_, ?_, ?_, ?_, ?_⟩
  · unfold handleStaticAsset
    cases hq : cacheMatch cache req <;> cases net <;> simp
  · unfold handleAPIRequest
    cases net with
    | some r => simp
    | none => cases hq : cacheMatch cache req <;> simp
  · unfold handleDefault
    cases hq : cacheMatch cache req with
    | some c => simp
    | none => cases net <;> simp
  · intro r
    unfold handleStaticAsset
    cases hq : cacheMatch cache req with
    | some c =>
      intro hr
      simp only [Option.some.injEq] at hr
      exact Or.inl (by rw [hr])
    | none =>
      intro hr
      simp only [Option.some.injEq] at hr
      exact Or.inr (by rw [← hr])
  · intro r
    unfold handleAPIRequest
    cases hq : cacheMatch cache req with
    | some c =>
      intro hr
      simp only [Option.some.injEq] at hr
      exact Or.inl ⟨c, rfl, hr.symm⟩
    | none =>
      intro hr
      simp only [Option.some.injEq] at hr
      exact Or.inr (by rw [← hr])
  · intro r
    unfold handleDefault
    cases hq : cacheMatch cache req with
    | some c =>
      intro hr
      simp only [Option.some.injEq] at hr
      exact Or.inl (by rw [hr])
    | none =>
      intro hr
      simp only [Option.some.injEq] at hr
      exact Or.inr (by rw [← hr])
  · unfold handleNavigation
    cases net with
    | some r =>
      intro h
      simp at h
    | none =>
      cases hq : cacheMatch cache req with
      | some c =>
        intro h
        simp at h
      | none =>
        intro h
        exact ⟨rfl, rfl, by simpa using h⟩

/-- Witness for C2 (amended): the only way navigation resolves with no
response is a failed fetch with both cache lookups empty. -/
theorem fetch_handlers_resolve_witness :
    (none : Option Response) = none ∧ cacheMatch ([] : Cache) "/x" = none ∧
      cacheMatch ([] : Cache) "/index.html" = none :=
  (fetch_handlers_resolve none [] "/x" "GET").2.2.2.2.2.2 (by rfl)

/-- Claim C7: when the network fetch fails and the cache holds a match for the
navigation request, `handleNavigation` returns exactly that cached response,
leaving the cache unmodified. -/
theorem navigation_offline_fallback (cache : Cache) (req : String) (r : Response)
    (h : cacheMatch cache req = some r) :
    handleNavigation none cache req = (some r, cache) := by
  simp [handleNavigation, h]

/-- Witness for C7: offline with a cached index document, the cached document
is served unchanged. -/
theorem navigation_offline_fallback_witness :
    handleNavigation none [("/index.html", ⟨200, "app", false⟩)] "/index.html" =
      (some ⟨200, "app", false⟩, [("/index.html", ⟨200, "app", false⟩)]) :=
  navigation_offline_fallback _ _ _ (by decide)

/-- Claim C4 counterexample: on the board generated from the draw stream
`draws0`, the numbers sequence holds the FREE sentinel at index 12 (row 2 of
column N), so column 2 does not consist of 5 numbers within 31–45. -/
theorem generated_column_N_not_all_numbers :
    (generateBoard 1 draws0 0).numbers.getD 12 CellVal.free = CellVal.free ∧
    (generateBoard 1 draws0 0).numbers.length = 25 ∧
    ¬ ∃ v : ℕ, (generateBoard 1 draws0 0).numbers.getD 12 CellVal.free =
        CellVal.num v := by
  refine ⟨rfl, genNumbers_length draws0, ?_⟩
  rintro ⟨v, hv⟩
  rw [show (generateBoard 1 draws0 0).numbers.getD 12 CellVal.free = CellVal.free
        from rfl] at hv
  exact CellVal.noConfusion hv

/-- Claim C4 (amended): for every generated board and column `c < 5`, the
generated column values are distinct and strictly increasing top-to-bottom
within the column's assigned range, and the board's cell at row `r` of column
`c` holds the `r`-th of these values — except index 12 (row 2 of column N),
which holds the FREE sentinel instead of a number. -/
theorem generated_columns_sorted (id now : ℕ) (draws : ℕ → List ℕ) (c : ℕ)
    (hc : c < 5) :
    (genColumn (rangeFor c) (draws c)).Nodup ∧
    (genColumn (rangeFor c) (draws c)).Sorted (· < ·) ∧
    (∀ x ∈ genColumn (rangeFor c) (draws c),
        (rangeFor c).start ≤ x ∧ x ≤ (rangeFor c).last) ∧
    (generateBoard id draws now).numbers.length = 25 ∧
    (∀ r, r < 5 →
        (generateBoard id draws now).numbers.getD (r * 5 + c) CellVal.free =
          if r * 5 + c = FREE_SPACE_INDEX then CellVal.free
          else CellVal.num ((genColumn (rangeFor c) (draws c)).getD r 0)) := by
  have hr : (rangeFor c).start ≤ (rangeFor c).last := by
    interval_cases c <;> decide
  exact ⟨genColumn_nodup _ _, genColumn_sorted _ _, genColumn_mem_range _ hr _,
         genNumbers_length draws, fun r hrr => genNumbers_getD draws c r hc hrr⟩

/-- Witness for C4 (amended): column B of the `draws0` board is strictly
increasing. -/
theorem generated_columns_sorted_witness :
    (genColumn (rangeFor 0) (draws0 0)).Sorted (· < ·) :=
  (generated_columns_sorted 1 0 draws0 0 (by decide)).2.1

end PwaBingo
